import Mathlib

/-!
Shallow embedding of the store-resolution, long-running-operation polling,
ingestion and query-extraction layer of the Gemini RAG MCP server
(source files: src/clients/gemini-client.ts and
src/tools/implementations/upload-file-tool.ts).

Remote collaborators are modelled as explicit data threaded through the
functions: the backend store collection is a list of raw entries inside a
Backend state, the operation-refresh endpoint is a finite trace of refresh
responses, and crypto.randomUUID is a deterministic generator indexed by an
entropy seed. The SDK pager returned by fileSearchStores.list is modelled by
its iterator contract: a for-await walk fetches the next page automatically
whenever the current page is exhausted, so iterating yields every item of the
collection, with the page size only setting per-request fetch granularity.
-/

set_option autoImplicit false
set_option linter.unusedVariables false

namespace GeminiRag

/-- A store entry as the backend lists it: both fields are optional in the SDK
type, so either may be absent. -/
structure RawStore where
  name : Option String := none
  displayName : Option String := none
deriving DecidableEq

/-- Client-side view of a store, the FileSearchStore record of
gemini-client.ts: a mandatory name and an optional displayName. -/
structure FileSearchStore where
  name : String
  displayName : Option String := none
deriving DecidableEq

/-- ListStoresConfig of gemini-client.ts: an optional pageSize. -/
structure ListStoresConfig where
  pageSize : Option Nat := none
deriving DecidableEq

/-- Backend state visible to the client: the store collection in listing
order, plus a counter from which the backend mints fresh store names. -/
structure Backend where
  stores : List RawStore
  nextId : Nat
deriving DecidableEq

/-- Name the modelled backend assigns to the next created store. -/
def freshStoreName (b : Backend) : String :=
  "fileSearchStores/" ++ toString b.nextId

/-- Backend state after a successful store creation: the created entry joins
the listed collection and the id counter advances. -/
def backendCreate (b : Backend) (displayName : String) : Backend :=
  { stores :=
      b.stores ++ [{ name := some (freshStoreName b), displayName := some displayName }],
    nextId := b.nextId + 1 }

/-- Backend reply and state change for fileSearchStores.create: the created
entry echoes the requested display name and carries a fresh backend-assigned
name. -/
def backendCreateResult (b : Backend) (displayName : String) : RawStore × Backend :=
  ({ name := some (freshStoreName b), displayName := some displayName },
   backendCreate b displayName)

/-- Per-entry mapping applied inside the listing loop of
GeminiClient.listStores: a missing name becomes the empty string, the
display name is passed through unchanged. -/
def toClientStore (s : RawStore) : FileSearchStore :=
  { name := s.name.getD "", displayName := s.displayName }

/-- Items yielded by iterating the SDK pager over the paginated backend
collection. The pager's async iterator fetches the next page automatically
whenever the current page runs out, so a full for-await walk yields every
item of the collection regardless of the configured page size. -/
def pagerItems (pageSize : Nat) (stores : List RawStore) : List RawStore :=
  stores

/-- GeminiClient.listStores: drive the pager over the backend collection with
the configured page size (default 20) and map every yielded entry through
toClientStore. -/
def listStores (b : Backend) (config : Option ListStoresConfig) : List FileSearchStore :=
  (pagerItems ((config.bind (fun c => c.pageSize)).getD 20) b.stores).map toClientStore

/-- GeminiClient.findStoreByDisplayName: list the stores (with no explicit
config) and return the first whose displayName strictly equals the requested
one, or none. -/
def findStoreByDisplayName (b : Backend) (displayName : String) : Option FileSearchStore :=
  (listStores b none).find? (fun store => store.displayName == some displayName)

/-- GeminiClient.createStore: ask the backend to create a store; fail when the
created entry comes back with a falsy name (absent or empty), otherwise return
the created handle together with the updated backend state. -/
def createStore (b : Backend) (displayName : String) :
    Except String (FileSearchStore × Backend) :=
  let r := backendCreateResult b displayName
  match r.1.name with
  | none => Except.error "Failed to create FileSearchStore"
  | some n =>
      if n = "" then Except.error "Failed to create FileSearchStore"
      else Except.ok ({ name := n, displayName := r.1.displayName }, r.2)

/-- GeminiClient.ensureStore: find a store by display name, create one with
that display name when none is found. -/
def ensureStore (b : Backend) (displayName : String) :
    Except String (FileSearchStore × Backend) :=
  match findStoreByDisplayName b displayName with
  | some foundStore => Except.ok (foundStore, b)
  | none => createStore b displayName

/-- Error payload of an operation snapshot: optional message, code and
details, mirroring the error field of MinimalOperation. -/
structure OperationError where
  message : Option String := none
  code : Option Int := none
  details : Option String := none
deriving DecidableEq

/-- JSON serialization of the error payload, used when the backend error has
no message field. Mirrors JSON.stringify on the payload object: fields present
on the object are emitted in declaration order, absent (undefined) fields are
skipped; string contents are assumed free of characters needing escapes. -/
def jsonStringifyOperationError (e : OperationError) : String :=
  let fields :=
    (match e.message with
     | some m => ["\"message\":\"" ++ m ++ "\""]
     | none => []) ++
    (match e.code with
     | some c => ["\"code\":" ++ toString c]
     | none => []) ++
    (match e.details with
     | some d => ["\"details\":\"" ++ d ++ "\""]
     | none => [])
  "\x7b" ++ String.intercalate "," fields ++ "\x7d"

/-- The message of the failure thrown for a failed operation: the error's own
message when present, otherwise its JSON serialization. -/
def operationErrorMessage (e : OperationError) : String :=
  e.message.getD (jsonStringifyOperationError e)

/-- Result payload carried by a finished upload operation; uploadBlob reads it
through an optional-chained cast. -/
structure OperationResponse where
  documentName : Option String := none
deriving DecidableEq

/-- An operation snapshot: the MinimalOperation fields of gemini-client.ts
plus the response payload that uploadBlob reads off the finished operation. -/
structure Operation where
  done : Option Bool := none
  name : Option String := none
  error : Option OperationError := none
  response : Option OperationResponse := none
deriving DecidableEq

/-- One refresh reply from the operations endpoint: either a well-formed
operation object, or a malformed value (null or a primitive), which the
source detects with a typeof check. -/
inductive PolledValue where
  | op (o : Operation)
  | malformed
deriving DecidableEq

/-- Outcome of GeminiClient.waitForOperationDone. The source throws a plain
Error carrying the backend error's message on a failed operation (the spec
taxonomy calls this RemoteOperationError) and a plain Error with a fixed
message on a malformed refresh (ProtocolError in the spec taxonomy).
traceEnded marks the modelling artifact of the finite refresh trace running
out while the operation is still pending, where the source would keep
sleeping and refreshing forever. -/
inductive PollResult where
  | success (o : Operation)
  | remoteOperationError (msg : String)
  | protocolError (msg : String)
  | traceEnded
deriving DecidableEq

/-- The answer of the polling loop for a snapshot with done strictly equal to
true: fail with the error's message when an error is present, otherwise return
the snapshot itself; in both cases without any further round. -/
def terminalAnswer (current : Operation) : PollResult × Nat :=
  match current.error with
  | some e => (PollResult.remoteOperationError (operationErrorMessage e), 0)
  | none => (PollResult.success current, 0)

/-- GeminiClient.waitForOperationDone, with the unbounded polling loop driven
by a finite trace of refresh replies. Each iteration first checks whether the
current snapshot is terminal and answers without touching the trace if so;
otherwise it sleeps, consumes one refresh reply and loops on it. The result is
paired with the number of sleep-then-refresh rounds performed (the fixed
pollMs sleep is represented only by this count). An exhausted trace on a
still-pending snapshot is answered with traceEnded, the stand-in for the
source's endless further polling. -/
def waitForOperationDone : Operation → List PolledValue → PollResult × Nat
  | current, [] =>
      if current.done = some true then terminalAnswer current
      else (PollResult.traceEnded, 0)
  | current, v :: rest =>
      if current.done = some true then terminalAnswer current
      else
        match v with
        | PolledValue.malformed =>
            (PollResult.protocolError "Invalid operation state received while polling", 1)
        | PolledValue.op next =>
            let r := waitForOperationDone next rest
            (r.1, r.2 + 1)

/-- A custom metadata entry attached to an upload. -/
structure CustomMetadata where
  key : String
  stringValue : Option String := none
  numericValue : Option Int := none
deriving DecidableEq

/-- The arguments of GeminiClient.uploadBlob that shape the backend request;
the blob bytes themselves are behind the backend boundary and do not
influence the extracted result. -/
structure UploadBlobArgs where
  storeName : String
  mimeType : String
  displayName : String
  metadata : Option (List CustomMetadata) := none
deriving DecidableEq

/-- Model of crypto.randomUUID: a locally generated identifier, deterministic
in an entropy seed. Only the properties the client relies on are kept: the
generated string is nonempty and produced locally, without any backend
round-trip. -/
def randomUUID (seed : Nat) : String :=
  "00000000-0000-4000-8000-" ++ toString seed

/-- Failure channel of an upload call, inherited unchanged from the polling
loop. -/
inductive UploadFailure where
  | remoteOperationError (msg : String)
  | protocolError (msg : String)
  | traceEnded
deriving DecidableEq

/-- The result record of an upload: the document name reported to the
caller. -/
structure UploadFileResult where
  documentName : String
deriving DecidableEq

/-- GeminiClient.uploadBlob after the upload request has been accepted by the
backend: the backend's initial operation snapshot and the subsequent refresh
trace are explicit inputs, as is the entropy seed consumed by randomUUID.
The finished operation's response payload supplies the document name; when it
is absent a locally generated identifier is substituted. -/
def uploadBlob (args : UploadBlobArgs) (initialOp : Operation)
    (fetches : List PolledValue) (seed : Nat) :
    Except UploadFailure UploadFileResult :=
  match (waitForOperationDone initialOp fetches).1 with
  | PollResult.success finished =>
      let documentName :=
        (finished.response.bind (fun r => r.documentName)).getD (randomUUID seed)
      Except.ok { documentName := documentName }
  | PollResult.remoteOperationError m => Except.error (UploadFailure.remoteOperationError m)
  | PollResult.protocolError m => Except.error (UploadFailure.protocolError m)
  | PollResult.traceEnded => Except.error UploadFailure.traceEnded

/-- A web source attached to a grounding chunk: an optional URI. -/
structure WebSource where
  uri : Option String := none
deriving DecidableEq

/-- A grounding chunk: an optional web source. -/
structure GroundingChunk where
  web : Option WebSource := none
deriving DecidableEq

/-- Grounding metadata of a candidate: an optional list of grounding
chunks. -/
structure GroundingMetadata where
  groundingChunks : Option (List GroundingChunk) := none
deriving DecidableEq

/-- The slice of a response candidate that extractCitations reads through its
cast. -/
structure Candidate where
  groundingMetadata : Option GroundingMetadata := none
deriving DecidableEq

/-- The slice of a generate-content response that extractCitations reads. -/
structure QueryResponse where
  candidates : Option (List Candidate) := none
deriving DecidableEq

/-- GeminiClient.extractCitations: read the optional chain from the first
candidate down to its grounding chunks; when the chain breaks there are no
citations; otherwise map each chunk to its optional web URI and keep exactly
the entries where a string is present. -/
def extractCitations (resp : QueryResponse) : List String :=
  match (((resp.candidates.bind List.head?).bind
      (fun c => c.groundingMetadata)).bind (fun g => g.groundingChunks)) with
  | none => []
  | some chunks =>
      ((chunks.map (fun chunk => chunk.web.bind (fun w => w.uri))).filterMap id)

/-- The fixed extension-to-MIME lookup table of
UploadFileTool.getMimeTypeFromExtension. -/
def mimeTypes : List (String × String) :=
  [("pdf", "application/pdf"),
   ("txt", "text/plain"),
   ("md", "text/markdown"),
   ("html", "text/html"),
   ("json", "application/json"),
   ("xml", "application/xml"),
   ("csv", "text/csv"),
   ("doc", "application/msword"),
   ("docx", "application/vnd.openxmlformats-officedocument.wordprocessingml.document"),
   ("xls", "application/vnd.ms-excel"),
   ("xlsx", "application/vnd.openxmlformats-officedocument.spreadsheetml.sheet"),
   ("ppt", "application/vnd.ms-powerpoint"),
   ("pptx", "application/vnd.openxmlformats-officedocument.presentationml.presentation")]

/-- UploadFileTool.getMimeTypeFromExtension: lookup table with a generic
binary fallback. -/
def getMimeTypeFromExtension (ext : String) : String :=
  (mimeTypes.lookup ext).getD "application/octet-stream"

/-- Splitting a character list on dots, accumulating the current piece in
reverse: the structural model of the JS string split with separator dot. -/
def splitOnDotAux : List Char → List Char → List String
  | [], acc => [String.mk acc.reverse]
  | c :: cs, acc =>
      if c = '.' then String.mk acc.reverse :: splitOnDotAux cs []
      else splitOnDotAux cs (c :: acc)

/-- The JS split of a string on the dot separator: always a nonempty list of
pieces, with empty pieces kept (an empty input splits to one empty piece). -/
def splitOnDot (s : String) : List String :=
  splitOnDotAux s.data []

/-- ASCII lowercasing of a string, character by character: the model of the
JS toLowerCase on the table's ASCII keys. -/
def asciiLower (s : String) : String :=
  String.mk (s.data.map Char.toLower)

/-- The extension extraction of UploadFileTool.execute: split the path on
dots, take the last piece, lowercase it (the split of a string is never
empty, so the fallback to the empty string is only formal). -/
def extensionOfPath (filePath : String) : String :=
  (((splitOnDot filePath).getLast?).map asciiLower).getD ""

/-- The MIME-type selection of UploadFileTool.execute: a falsy caller-supplied
type (absent or empty) is replaced by the type derived from the path's
extension. -/
def resolveMimeType (explicitMime : Option String) (filePath : String) : String :=
  match explicitMime with
  | some m =>
      if m = "" then getMimeTypeFromExtension (extensionOfPath filePath) else m
  | none => getMimeTypeFromExtension (extensionOfPath filePath)

/-- A pending operation snapshot used as a concrete polling start state. -/
def opPending : Operation := { done := some false }

/-- A concrete failed terminal operation snapshot with a backend message. -/
def opBoom : Operation :=
  { done := some true, error := some { message := some "boom" } }

/-- A concrete successful terminal operation snapshot with no response
payload. -/
def opDoneBare : Operation := { done := some true }

/-- The backend-assigned name of a freshly created store is never the empty
string, so the falsy-name guard of createStore never fires for the modelled
backend. -/
theorem freshStoreName_ne_empty (b : Backend) : freshStoreName b ≠ "" := by
  intro h
  have h' := congrArg String.length h
  rw [freshStoreName, String.length_append] at h'
  rw [show ("fileSearchStores/" : String).length = 17 from rfl,
    show ("" : String).length = 0 from rfl] at h'
  omega

/-- A locally generated identifier is never the empty string. -/
theorem randomUUID_ne_empty (seed : Nat) : randomUUID seed ≠ "" := by
  intro h
  have h' := congrArg String.length h
  rw [randomUUID, String.length_append] at h'
  rw [show ("00000000-0000-4000-8000-" : String).length = 24 from rfl,
    show ("" : String).length = 0 from rfl] at h'
  omega

/-- Store creation always succeeds against the modelled backend, returning
the fresh handle and the extended backend state. -/
theorem createStore_ok (b : Backend) (d : String) :
    createStore b d =
      Except.ok ({ name := freshStoreName b, displayName := some d },
        backendCreate b d) := by
  simp [createStore, backendCreateResult, freshStoreName_ne_empty b]

/-- Listing after a creation appends the created store, mapped to its client
view, to the previous listing. -/
theorem listStores_backendCreate (b : Backend) (d : String)
    (cfg : Option ListStoresConfig) :
    listStores (backendCreate b d) cfg =
      listStores b cfg ++ [{ name := freshStoreName b, displayName := some d }] := by
  simp [listStores, pagerItems, backendCreate, toClientStore]

/-- When no store with the requested display name was listed, the search
right after a creation for that display name finds the created store. -/
theorem findStoreByDisplayName_backendCreate (b : Backend) (d : String)
    (h : findStoreByDisplayName b d = none) :
    findStoreByDisplayName (backendCreate b d) d =
      some { name := freshStoreName b, displayName := some d } := by
  unfold findStoreByDisplayName at h ⊢
  rw [listStores_backendCreate, List.find?_append, h]
  simp

/-- A terminal snapshot is answered at once, whatever refresh trace lies
ahead. -/
theorem waitForOperationDone_terminal (op : Operation) (fetches : List PolledValue)
    (h : op.done = some true) :
    waitForOperationDone op fetches = terminalAnswer op := by
  cases fetches with
  | nil => simp [waitForOperationDone, h]
  | cons v fs => simp [waitForOperationDone, h]

/-- On a pending snapshot the loop's behaviour is determined by the trace
alone: any two pending snapshots give the same run. -/
theorem waitForOperationDone_pending_cons (x y : Operation) (v : PolledValue)
    (tail : List PolledValue)
    (hx : ¬ x.done = some true) (hy : ¬ y.done = some true) :
    waitForOperationDone x (v :: tail) = waitForOperationDone y (v :: tail) := by
  cases v <;> simp [waitForOperationDone, hx, hy]

/-- Skipping a prefix of pending refreshed snapshots costs one round each and
leaves the remaining run unchanged. -/
theorem waitForOperationDone_skip (pre : List Operation) :
    ∀ (cur : Operation) (v : PolledValue) (tail : List PolledValue),
      ¬ cur.done = some true → (∀ o ∈ pre, ¬ o.done = some true) →
      waitForOperationDone cur (pre.map PolledValue.op ++ v :: tail)
        = ((waitForOperationDone cur (v :: tail)).1,
           (waitForOperationDone cur (v :: tail)).2 + pre.length) := by
  induction pre with
  | nil =>
      intro cur v tail hcur hpre
      simp
  | cons o pre ih =>
      intro cur v tail hcur hpre
      have ho : ¬ o.done = some true := hpre o (by simp)
      have hpre' : ∀ p ∈ pre, ¬ p.done = some true := fun p hp => hpre p (by simp [hp])
      have hstep :
          waitForOperationDone cur
              ((o :: pre).map PolledValue.op ++ v :: tail)
            = ((waitForOperationDone o (pre.map PolledValue.op ++ v :: tail)).1,
               (waitForOperationDone o (pre.map PolledValue.op ++ v :: tail)).2 + 1) := by
        simp [waitForOperationDone, hcur]
      rw [hstep, ih o v tail ho hpre',
        waitForOperationDone_pending_cons o cur v tail ho hcur]
      simp [Nat.add_assoc, Nat.add_comm]

/-- C1: for every display name d, ensureStore d first materializes the list
of stores, scans it linearly, and returns unchanged (with the backend state
untouched) the first store whose displayName exactly equals d; if no listed
store has displayName d, it creates a new store with displayName d and
returns the newly assigned handle. -/
theorem ensureStore_scan (b : Backend) (d : String) :
    ensureStore b d =
      match (listStores b none).find? (fun store => store.displayName == some d) with
      | some s => Except.ok (s, b)
      | none =>
          Except.ok ({ name := freshStoreName b, displayName := some d },
            backendCreate b d) := by
  cases hfind : (listStores b none).find? (fun store => store.displayName == some d) with
  | some s => simp [ensureStore, findStoreByDisplayName, hfind]
  | none => simp [ensureStore, findStoreByDisplayName, hfind, createStore_ok]

/-- C4: calling ensureStore twice in sequence with the same display name
returns the same store identifier both times and the second call leaves the
backend unchanged; when no store with that display name exists beforehand,
the first call creates exactly one new store and the second call returns that
same store without creating another. -/
theorem ensureStore_twice (b : Backend) (d : String) :
    (∃ s₁ s₂ b₁, ensureStore b d = Except.ok (s₁, b₁) ∧
        ensureStore b₁ d = Except.ok (s₂, b₁) ∧ s₂.name = s₁.name) ∧
    (findStoreByDisplayName b d = none →
      ∃ s₁ b₁, ensureStore b d = Except.ok (s₁, b₁) ∧
        b₁.stores.length = b.stores.length + 1 ∧
        ensureStore b₁ d = Except.ok (s₁, b₁)) := by
  have hcreate : findStoreByDisplayName b d = none →
      ensureStore b d = Except.ok ({ name := freshStoreName b, displayName := some d },
          backendCreate b d) ∧
      ensureStore (backendCreate b d) d =
        Except.ok ({ name := freshStoreName b, displayName := some d },
          backendCreate b d) := by
    intro hnone
    constructor
    · simp [ensureStore, hnone, createStore_ok]
    · simp [ensureStore, findStoreByDisplayName_backendCreate b d hnone]
  constructor
  · cases hfind : findStoreByDisplayName b d with
    | some s =>
        exact ⟨s, s, b, by simp [ensureStore, hfind], by simp [ensureStore, hfind], rfl⟩
    | none =>
        obtain ⟨h₁, h₂⟩ := hcreate hfind
        exact ⟨_, _, _, h₁, h₂, rfl⟩
  · intro hfind
    obtain ⟨h₁, h₂⟩ := hcreate hfind
    refine ⟨_, _, h₁, ?_, h₂⟩
    simp [backendCreate]

/-- Witness for C4: on an empty backend, the first ensureStore for the name
docs creates exactly one store and the second call returns the same handle
without creating another. -/
theorem ensureStore_twice_witness :
    ∃ s₁ b₁,
      ensureStore { stores := [], nextId := 0 } "docs" = Except.ok (s₁, b₁) ∧
      b₁.stores.length = ({ stores := [], nextId := 0 } : Backend).stores.length + 1 ∧
      ensureStore b₁ "docs" = Except.ok (s₁, b₁) :=
  (ensureStore_twice { stores := [], nextId := 0 } "docs").2 rfl

/-- C2: when the initial snapshot, or the first refreshed snapshot reached by
the loop, has done strictly true and an error present, the poller fails at
that very snapshot with the remote-operation failure carrying the backend
error message, or the JSON-stringified error payload when the error has no
message field; later trace entries are never consumed. -/
theorem waitForOperationDone_error (cur bad : Operation) (pre : List Operation)
    (rest : List PolledValue) (e : OperationError)
    (hcur : ¬ cur.done = some true)
    (hpre : ∀ o ∈ pre, ¬ o.done = some true)
    (hbad : bad.done = some true) (herr : bad.error = some e) :
    waitForOperationDone cur (pre.map PolledValue.op ++ PolledValue.op bad :: rest)
      = (PollResult.remoteOperationError (operationErrorMessage e), pre.length + 1) ∧
    waitForOperationDone bad rest
      = (PollResult.remoteOperationError (operationErrorMessage e), 0) := by
  have hterm : waitForOperationDone bad rest
      = (PollResult.remoteOperationError (operationErrorMessage e), 0) := by
    rw [waitForOperationDone_terminal bad rest hbad]
    simp [terminalAnswer, herr]
  refine ⟨?_, hterm⟩
  rw [waitForOperationDone_skip pre cur (PolledValue.op bad) rest hcur hpre]
  have hstep : waitForOperationDone cur (PolledValue.op bad :: rest)
      = ((waitForOperationDone bad rest).1, (waitForOperationDone bad rest).2 + 1) := by
    simp [waitForOperationDone, hcur]
  rw [hstep, hterm]
  simp [Nat.add_comm]

/-- Witness for C2: a pending snapshot refreshed into a failed terminal
snapshot fails after one round with the backend message, and a failed
terminal initial snapshot fails with no rounds. -/
theorem waitForOperationDone_error_witness :
    waitForOperationDone opPending [PolledValue.op opBoom]
        = (PollResult.remoteOperationError "boom", 1) ∧
    waitForOperationDone opBoom [] = (PollResult.remoteOperationError "boom", 0) := by
  have h := waitForOperationDone_error opPending opBoom [] [] { message := some "boom" }
    (by simp [opPending]) (by simp) rfl rfl
  simpa [operationErrorMessage] using h

/-- C5: when the loop, after skipping pending snapshots, meets a refresh
reply that is not a well-formed operation object, it fails at once with the
protocol failure carrying the fixed message, and never consumes the rest of
the trace. -/
theorem waitForOperationDone_malformed (cur : Operation) (pre : List Operation)
    (rest : List PolledValue)
    (hcur : ¬ cur.done = some true)
    (hpre : ∀ o ∈ pre, ¬ o.done = some true) :
    waitForOperationDone cur (pre.map PolledValue.op ++ PolledValue.malformed :: rest)
      = (PollResult.protocolError "Invalid operation state received while polling",
         pre.length + 1) := by
  rw [waitForOperationDone_skip pre cur PolledValue.malformed rest hcur hpre]
  simp [waitForOperationDone, hcur, Nat.add_comm]

/-- Witness for C5: a pending snapshot whose first refresh is malformed fails
with the protocol failure after one round, ignoring the rest of the trace. -/
theorem waitForOperationDone_malformed_witness :
    waitForOperationDone opPending [PolledValue.malformed, PolledValue.op opDoneBare]
      = (PollResult.protocolError "Invalid operation state received while polling", 1) := by
  simpa using waitForOperationDone_malformed opPending [] [PolledValue.op opDoneBare]
    (by simp [opPending]) (by simp)

/-- C6: a snapshot with done strictly true and no error is returned
immediately and unchanged, with zero sleep-then-refresh rounds, whatever
refresh trace lies ahead. -/
theorem waitForOperationDone_done_ok (op : Operation) (fetches : List PolledValue)
    (hdone : op.done = some true) (herr : op.error = none) :
    waitForOperationDone op fetches = (PollResult.success op, 0) := by
  rw [waitForOperationDone_terminal op fetches hdone]
  simp [terminalAnswer, herr]

/-- Witness for C6: an already-done snapshot is returned with zero rounds
even when the trace ahead only holds a malformed reply. -/
theorem waitForOperationDone_done_ok_witness :
    waitForOperationDone opDoneBare [PolledValue.malformed]
      = (PollResult.success opDoneBare, 0) :=
  waitForOperationDone_done_ok opDoneBare [PolledValue.malformed] rfl rfl

/-- C7: when the operation completes successfully but the result payload
carries no document name, the upload call does not fail: it returns the
locally generated identifier as the document name, and that identifier is
never the empty string. -/
theorem uploadBlob_missing_documentName (args : UploadBlobArgs)
    (initialOp finished : Operation) (fetches : List PolledValue) (seed rounds : Nat)
    (hpoll : waitForOperationDone initialOp fetches = (PollResult.success finished, rounds))
    (hmiss : finished.response.bind (fun r => r.documentName) = none) :
    uploadBlob args initialOp fetches seed = Except.ok { documentName := randomUUID seed } ∧
    randomUUID seed ≠ "" := by
  refine ⟨?_, randomUUID_ne_empty seed⟩
  unfold uploadBlob
  rw [hpoll]
  simp [hmiss]

/-- Witness for C7: an upload whose operation is already done with no
response payload returns the synthesized identifier and does not fail. -/
theorem uploadBlob_missing_documentName_witness :
    uploadBlob { storeName := "s", mimeType := "text/plain", displayName := "greeting.txt" }
        opDoneBare [] 0
      = Except.ok { documentName := randomUUID 0 } ∧ randomUUID 0 ≠ "" :=
  uploadBlob_missing_documentName
    { storeName := "s", mimeType := "text/plain", displayName := "greeting.txt" }
    opDoneBare opDoneBare [] 0 0 rfl rfl

/-- C8: citation extraction reads the grounding chunks of the first
candidate and keeps, in the backend's order, exactly the web URIs that are
present; every break in the optional chain (no candidates, an empty
candidate list, no grounding metadata, no chunk list) yields the empty
citation list, and a chunk list with one URI-less entry and one entry with a
URI yields exactly that URI. -/
theorem extractCitations_spec :
    (∀ (chunks : List GroundingChunk) (rest : List Candidate),
      extractCitations
          { candidates := some
              ({ groundingMetadata := some { groundingChunks := some chunks } } :: rest) }
        = chunks.filterMap (fun chunk => chunk.web.bind (fun w => w.uri))) ∧
    extractCitations { candidates := none } = [] ∧
    extractCitations { candidates := some [] } = [] ∧
    (∀ rest : List Candidate,
      extractCitations { candidates := some ({ groundingMetadata := none } :: rest) } = []) ∧
    (∀ rest : List Candidate,
      extractCitations
          { candidates := some
              ({ groundingMetadata := some { groundingChunks := none } } :: rest) } = []) ∧
    extractCitations
        (QueryResponse.mk (some [Candidate.mk (some (GroundingMetadata.mk (some
          [GroundingChunk.mk none,
           GroundingChunk.mk (some (WebSource.mk (some "https://example.com/source")))])))]))
      = ["https://example.com/source"] := by
  refine ⟨?_, rfl, rfl, fun rest => rfl, fun rest => rfl, rfl⟩
  intro chunks rest
  simp [extractCitations]

/-- C9: with no caller-supplied MIME type, the type is derived from the
path's extension through the fixed lookup table: a md extension yields
text/markdown, and any extension outside the table (such as xyz) yields
application/octet-stream. -/
theorem uploadFile_mime_derivation :
    resolveMimeType none "notes.md" = "text/markdown" ∧
    resolveMimeType none "archive.xyz" = "application/octet-stream" ∧
    getMimeTypeFromExtension "md" = "text/markdown" ∧
    (∀ ext : String, mimeTypes.lookup ext = none →
      getMimeTypeFromExtension ext = "application/octet-stream") := by
  refine ⟨rfl, rfl, rfl, fun ext h => ?_⟩
  simp [getMimeTypeFromExtension, h]

/-- Witness for C9: the extension xyz is outside the table and resolves to
the generic binary MIME type. -/
theorem uploadFile_mime_derivation_witness :
    mimeTypes.lookup "xyz" = none ∧
    getMimeTypeFromExtension "xyz" = "application/octet-stream" :=
  ⟨rfl, uploadFile_mime_derivation.2.2.2 "xyz" rfl⟩

/-- C3 counterexample: with two stores on the backend and a requested page
size of one, listStores returns both stores, so it does not return at most
one page's worth of stores. -/
theorem listStores_first_page_counterexample :
    ¬ ((listStores { stores := [{ name := some "fileSearchStores/a" },
          { name := some "fileSearchStores/b" }], nextId := 2 }
        (some { pageSize := some 1 })).length ≤ 1) := by decide

/-- C3 amended: listStores drives the pager across every page, so it returns
the entire backend store collection; the page size only sets per-request
fetch granularity and does not change the result. -/
theorem listStores_materializes_all (b : Backend) (cfg cfg' : Option ListStoresConfig) :
    listStores b cfg = b.stores.map toClientStore ∧ listStores b cfg = listStores b cfg' :=
  ⟨rfl, rfl⟩

/-- C10: a listed backend entry lacking a name is neither dropped nor an
error: it is kept at its position with the empty string as name, and through
findStoreByDisplayName and ensureStore a caller can receive a store handle
whose identifier is the empty string. -/
theorem listStores_keeps_nameless (pre post : List RawStore) (dn : Option String)
    (k : Nat) (cfg : Option ListStoresConfig) :
    listStores { stores := pre ++ { name := none, displayName := dn } :: post, nextId := k }
        cfg
      = pre.map toClientStore ++
          ({ name := "", displayName := dn } : FileSearchStore) :: post.map toClientStore ∧
    ensureStore { stores := [{ name := none, displayName := some "docs" }], nextId := 0 }
        "docs"
      = Except.ok ({ name := "", displayName := some "docs" },
          { stores := [{ name := none, displayName := some "docs" }], nextId := 0 }) := by
  constructor
  · simp [listStores, pagerItems, toClientStore]
  · rfl

end GeminiRag
